import Mathlib

/-!
Shallow embedding of `src/embed.py`, a small FastAPI service that loads
sentence-embedding models and a spaCy entity pipeline once at startup and then
serves embedding / entity-analysis requests.

Modelling conventions:
- Embedding vectors (numpy float arrays in the source) are lists of rationals.
- The external model handles (`SentenceTransformer` objects) are values of
  `EmbModel`, a record holding the per-text `encode` function of the model, which
  may fail (raise) with a message. Encoding a list of texts
  (`model.encode(list, batch_size=...)`) is `encodeMany`: the library encodes
  each input independently, in input order; the sub-batch size does not change
  the outputs, only the internal call pattern, so it is recorded in the call
  trace rather than in `encodeMany`.
- Python exceptions are the type `Exn`: `httpExc` models a raised
  `fastapi.HTTPException` (status code plus detail) and `rawExc` models any
  other exception, identified by its message. `strOfExn` models the Python
  `str(e)` call: for a starlette `HTTPException` this is "<status>: <detail>", for
  an ordinary exception it is its message.
- Each HTTP handler becomes a pure function from the model container, the
  request, and any environment readings it consumes (host memory percentage,
  which the source reads from `psutil`) to a `HandlerResult`: the outcome
  (response value or uncaught exception), the trace of encode invocations it
  performed, and the list of tasks it registered with the FastAPI
  `BackgroundTasks` object (which the framework runs after the response is sent).
- The pydantic field named "prefix" is called `pfx` here.
-/

namespace EmbedService

/-- An embedding vector: a numpy float array in the source, a list of rationals
here. -/
abbrev Vec := List ℚ

/-- Request body of `POST /embed` (pydantic `EmbedRequest`): `text`, a prefix
string (field "prefix", default "passage: "), and a model name (default
"intfloat/multilingual-e5-small"). -/
structure EmbedRequest where
  text : String
  pfx : String
  model : String
deriving DecidableEq

/-- Request body of `POST /embed_sentences` (pydantic `BatchEmbedRequest`). -/
structure BatchEmbedRequest where
  sentences : List String
  pfx : String
  model : String
deriving DecidableEq

/-- Request body of `POST /analyze` (pydantic `AnalyzeRequest`). -/
structure AnalyzeRequest where
  sentence : String
deriving DecidableEq

/-- One spaCy entity span: its surface text and its label (`ent.text`,
`ent.label_`). -/
structure Ent where
  text : String
  label : String
deriving DecidableEq

/-- A loaded sentence-embedding model handle (`SentenceTransformer`), reduced
to its `encode` capability on a single text, which either returns a vector or
fails with an exception message. -/
structure EmbModel where
  encode : String → Except String Vec

/-- The spaCy pipeline handle: maps one sentence to its entity spans in
appearance order, or fails with an exception message. -/
abbrev NlpPipe := String → Except String (List Ent)

/-- A Python exception: either a `fastapi.HTTPException` carrying a status
code and a detail string, or any other exception carrying its message. -/
inductive Exn where
  | httpExc (status : Nat) (detail : String)
  | rawExc (msg : String)
deriving DecidableEq

/-- Python `str(e)`: the starlette `HTTPException.__str__` prints
"<status>: <detail>"; an ordinary exception prints its message. -/
def strOfExn : Exn → String
  | Exn.httpExc status detail => toString status ++ ": " ++ detail
  | Exn.rawExc msg => msg

/-- One invocation of the `encode` method of a model: which registry key the model
was looked up under, the exact input strings passed, and the `batch_size`
keyword argument if one was given. -/
structure EncodeCall where
  modelName : String
  inputs : List String
  batchSize : Option Nat
deriving DecidableEq

/-- A task registered with FastAPI `BackgroundTasks`; the framework runs it
after the response has been sent. The only such task in the source is
`memory_cleanup`. -/
inductive BgTask where
  | memoryCleanupTask
deriving DecidableEq

/-- An effect performed by a background task when it eventually runs. -/
inductive BgEffect where
  | cudaEmptyCache
  | gcCollect
deriving DecidableEq

/-- What one HTTP handler invocation produces: the response value or the
exception that escapes the handler (`Except.error (Exn.httpExc ..)` is a
raised `HTTPException`, which FastAPI renders as a response with that status
and body `{detail: ...}`; `Except.error (Exn.rawExc ..)` is any other
uncaught exception, which the generic FastAPI 500 handler absorbs without
exposing the message), the encode calls made, and the background tasks
scheduled to run after the response is sent. -/
structure HandlerResult (α : Type) where
  result : Except Exn α
  calls : List EncodeCall
  background : List BgTask

/-- The global model container (`ModelContainer`): the name-keyed mapping of
loaded embedding models, the optional spaCy pipeline, and the device string. -/
structure ModelContainer where
  models : List (String × EmbModel)
  nlp : Option NlpPipe
  device : String

/-- `ModelContainer.__init__`: empty model dict, no pipeline, device "cuda"
when `torch.cuda.is_available()` else "cpu". -/
def ModelContainer.init (cudaAvailable : Bool) : ModelContainer :=
  { models := [], nlp := none, device := if cudaAvailable then "cuda" else "cpu" }

/-- Registry key of the small e5 model. -/
def e5small : String := "intfloat/multilingual-e5-small"

/-- Registry key of the large e5 model. -/
def e5large : String := "intfloat/multilingual-e5-large-instruct"

/-- Insertion into the model dict (`self.models[name] = ...`). -/
def dictInsert {α : Type} (k : String) (v : α) (d : List (String × α)) :
    List (String × α) :=
  (k, v) :: d.filter (fun p => p.1 != k)

/-- `ModelContainer.load_models`: loads the two e5 models under their
canonical names and the spaCy pipeline. The loading of the external artifacts
themselves is abstracted by `loader` (what `SentenceTransformer(name, device)`
returns) and `nlpP` (what `spacy.load` returns). -/
def ModelContainer.load_models (loader : String → EmbModel) (nlpP : NlpPipe)
    (mc : ModelContainer) : ModelContainer :=
  let mc1 := { mc with models := dictInsert e5small (loader e5small) mc.models }
  let mc2 := { mc1 with models := dictInsert e5large (loader e5large) mc1.models }
  { mc2 with nlp := some nlpP }

/-- `memory_cleanup`: empties the CUDA cache when CUDA is available, then runs
a garbage-collection pass. -/
def memory_cleanup (cudaAvailable : Bool) : List BgEffect :=
  (if cudaAvailable then [BgEffect.cudaEmptyCache] else []) ++ [BgEffect.gcCollect]

/-- Response body of `GET /health`: `{status, device}`. -/
def health (mc : ModelContainer) : String × String :=
  ("healthy", mc.device)

/-- Response body of `POST /embed`: `{embedding, dimensions}`. -/
structure EmbedResponse where
  embedding : Vec
  dimensions : Nat
deriving DecidableEq

/-- Response body of `POST /embed_sentences`: `{embeddings, count}`. -/
structure BatchResponse where
  embeddings : List Vec
  count : Nat
deriving DecidableEq

/-- Response body of `POST /analyze`: `{entity_count, entities}`. -/
structure AnalyzeResponse where
  entity_count : Nat
  entities : List Ent
deriving DecidableEq

/-- The body of the `try` block of `embed_text`: look the model up
(`models.models.get`), raise `HTTPException(400, ...)` when absent, otherwise
encode the prefix-text concatenation and build the response. Returns the
response or the exception raised, together with the encode calls made. -/
def embed_text_body (mc : ModelContainer) (req : EmbedRequest) :
    Except Exn EmbedResponse × List EncodeCall :=
  match mc.models.lookup req.model with
  | none =>
      (Except.error (Exn.httpExc 400 ("Model " ++ req.model ++ " not loaded")), [])
  | some m =>
      let combined_text := req.pfx ++ req.text
      let call : EncodeCall := { modelName := req.model, inputs := [combined_text], batchSize := none }
      match m.encode combined_text with
      | Except.error msg => (Except.error (Exn.rawExc msg), [call])
      | Except.ok v =>
          (Except.ok { embedding := v, dimensions := v.length }, [call])

/-- Handler of `POST /embed` (`embed_text`). The whole body sits inside
`try: ... except Exception as e: raise HTTPException(500, str(e))`; since
`HTTPException` derives from `Exception`, the clause also catches the 400
raised for an unknown model and re-raises it with status 500. -/
def embed_text (mc : ModelContainer) (req : EmbedRequest) :
    HandlerResult EmbedResponse :=
  match embed_text_body mc req with
  | (Except.error e, calls) =>
      { result := Except.error (Exn.httpExc 500 (strOfExn e)), calls := calls, background := [] }
  | (Except.ok r, calls) =>
      { result := Except.ok r, calls := calls, background := [] }

/-- `model.encode` applied to a list of texts: the library encodes each input
independently in input order, stopping at the first failure; the `batch_size`
argument only shapes the internal sub-batching and never the outputs. -/
def encodeMany (f : String → Except String Vec) : List String → Except String (List Vec)
  | [] => Except.ok []
  | s :: rest =>
      match f s with
      | Except.error e => Except.error e
      | Except.ok v =>
          match encodeMany f rest with
          | Except.error e => Except.error e
          | Except.ok vs => Except.ok (v :: vs)

/-- The body of the `try` block of `embed_batch`: model lookup (raising 400
when absent), prefixing of every sentence, one batched encode call with
`batch_size=32`, the memory check that schedules `memory_cleanup` as a
background task when host memory utilisation exceeds 80, and the response.
`memPercent` is the `psutil.virtual_memory().percent` reading. -/
def embed_batch_body (mc : ModelContainer) (req : BatchEmbedRequest)
    (memPercent : ℚ) : Except Exn BatchResponse × List EncodeCall × List BgTask :=
  match mc.models.lookup req.model with
  | none =>
      (Except.error (Exn.httpExc 400 ("Model " ++ req.model ++ " not loaded")), [], [])
  | some m =>
      let prefixed := req.sentences.map (fun s => req.pfx ++ s)
      let call : EncodeCall := { modelName := req.model, inputs := prefixed, batchSize := some 32 }
      match encodeMany m.encode prefixed with
      | Except.error msg => (Except.error (Exn.rawExc msg), [call], [])
      | Except.ok embeddings =>
          let bg := if 80 < memPercent then [BgTask.memoryCleanupTask] else []
          (Except.ok { embeddings := embeddings, count := embeddings.length }, [call], bg)

/-- Handler of `POST /embed_sentences` (`embed_batch`). The emptiness check
sits before the `try` block, so its 400 escapes directly; everything else is
inside `try: ... except Exception as e: raise HTTPException(500, str(e))`,
which also swallows the 400 raised for an unknown model. -/
def embed_batch (mc : ModelContainer) (req : BatchEmbedRequest)
    (memPercent : ℚ) : HandlerResult BatchResponse :=
  if req.sentences.isEmpty then
    { result := Except.error (Exn.httpExc 400 "Empty sentence list"), calls := [], background := [] }
  else
    match embed_batch_body mc req memPercent with
    | (Except.error e, calls, bg) =>
        { result := Except.error (Exn.httpExc 500 (strOfExn e)), calls := calls, background := bg }
    | (Except.ok r, calls, bg) =>
        { result := Except.ok r, calls := calls, background := bg }

/-- Handler of `POST /analyze` (`analyze_text`). It has no `try`/`except`: a
failure of the pipeline escapes the handler as the raw exception (calling a
`None` pipeline raises a `TypeError`). On success it returns the entity spans
in appearance order with their count. -/
def analyze_text (mc : ModelContainer) (req : AnalyzeRequest) :
    HandlerResult AnalyzeResponse :=
  match mc.nlp with
  | none =>
      { result := Except.error (Exn.rawExc "TypeError: NoneType object is not callable"),
        calls := [], background := [] }
  | some nlpP =>
      match nlpP req.sentence with
      | Except.error msg =>
          { result := Except.error (Exn.rawExc msg), calls := [], background := [] }
      | Except.ok ents =>
          { result := Except.ok
              { entity_count := ents.length,
                entities := ents.map (fun e => { text := e.text, label := e.label }) },
            calls := [], background := [] }

/-- Response body of `GET /memory`: `{used_gb, percent}`. `rssBytes` is the
process resident-set size in bytes and `percent` the host memory utilisation,
both read from `psutil`; `round(x, 2)` is modelled as rounding to a multiple
of 1/100 (Python rounds float ties to even, a halfway case no claim touches). -/
def memory_status (rssBytes : ℚ) (percent : ℚ) : ℚ × ℚ :=
  (round (rssBytes / 1024 ^ 3 * 100) / 100, percent)

/-- One incoming HTTP request, together with the environment readings the
handler consumes while serving it. -/
inductive Request where
  | healthReq
  | embedReq (r : EmbedRequest)
  | embedSentencesReq (r : BatchEmbedRequest) (memPercent : ℚ)
  | analyzeReq (r : AnalyzeRequest)
  | memoryReq (rssBytes : ℚ) (percent : ℚ)

/-- The response produced for one `Request`, as a sum over the endpoints. -/
inductive AnyResponse where
  | healthResp (status : String) (device : String)
  | embedResp (o : HandlerResult EmbedResponse)
  | batchResp (o : HandlerResult BatchResponse)
  | analyzeResp (o : HandlerResult AnalyzeResponse)
  | memoryResp (used_gb : ℚ) (percent : ℚ)

/-- Dispatch of one request to its handler. The container component of the
returned pair is the registry state after the request; the source handlers
never assign to `models.models`, `models.nlp` or `models.device`, so each
dispatch returns the container it was given. -/
def handle (mc : ModelContainer) : Request → ModelContainer × AnyResponse
  | Request.healthReq => (mc, AnyResponse.healthResp (health mc).1 (health mc).2)
  | Request.embedReq r => (mc, AnyResponse.embedResp (embed_text mc r))
  | Request.embedSentencesReq r memPercent =>
      (mc, AnyResponse.batchResp (embed_batch mc r memPercent))
  | Request.analyzeReq r => (mc, AnyResponse.analyzeResp (analyze_text mc r))
  | Request.memoryReq rssBytes percent =>
      (mc, AnyResponse.memoryResp (memory_status rssBytes percent).1 (memory_status rssBytes percent).2)

/-- The registry state in which the service starts accepting traffic: the
FastAPI startup event has run `models.load_models()` exactly once on the
freshly constructed container. -/
def readyState (cudaAvailable : Bool) (loader : String → EmbModel) (nlpP : NlpPipe) :
    ModelContainer :=
  (ModelContainer.init cudaAvailable).load_models loader nlpP

/-- The registry state after serving a sequence of requests from `mc`. -/
def runServer (mc : ModelContainer) (reqs : List Request) : ModelContainer :=
  reqs.foldl (fun st r => (handle st r).1) mc

/-- The reporting discipline named by the spec for inference errors: the
handler outcome is a raised HTTPException with a 5xx status whose detail is
exactly the raw underlying error message. -/
def reportedAs5xxWithDetail {α : Type} (r : Except Exn α) (msg : String) : Prop :=
  ∃ status, 500 ≤ status ∧ status < 600 ∧ r = Except.error (Exn.httpExc status msg)

/-- Position-by-position correspondence between input sentences and response
vectors: the k-th vector is the encoding of the k-th prefixed sentence, so
there is exactly one vector per sentence and they appear in input order. -/
def batchMatches (m : EmbModel) (pfxStr : String) (sentences : List String)
    (vs : List Vec) : Prop :=
  List.Forall₂ (fun s v => m.encode (pfxStr ++ s) = Except.ok v) sentences vs

/-- A model handle whose encode deterministically returns the vector [1, 2]. -/
def constModel : EmbModel :=
  { encode := fun _ => Except.ok [1, 2] }

/-- A pipeline that recognises no entities. -/
def emptyNlp : NlpPipe := fun _ => Except.ok []

/-- A concrete registry used to evaluate the handlers on concrete inputs. -/
def sampleContainer : ModelContainer :=
  { models := [(e5small, constModel)], nlp := some emptyNlp, device := "cpu" }

/-- A model handle whose encode always raises with message "boom". -/
def failingModel : EmbModel :=
  { encode := fun _ => Except.error "boom" }

/-- A pipeline that always raises with message "boom". -/
def failingNlp : NlpPipe := fun _ => Except.error "boom"

/-- A concrete registry whose model and pipeline always raise. -/
def failingContainer : ModelContainer :=
  { models := [(e5small, failingModel)], nlp := some failingNlp, device := "cpu" }

/-- Inversion of a successful list encode: the outputs correspond to the
inputs position by position, in input order. -/
theorem encodeMany_ok_forall2 (f : String → Except String Vec) :
    ∀ (xs : List String) (vs : List Vec), encodeMany f xs = Except.ok vs →
      List.Forall₂ (fun s v => f s = Except.ok v) xs vs := by
  intro xs
  induction xs with
  | nil =>
      intro vs h
      simp [encodeMany] at h
      subst h
      exact List.Forall₂.nil
  | cons x rest ih =>
      intro vs h
      unfold encodeMany at h
      split at h
      · cases h
      · rename_i v hfx
        split at h
        · cases h
        · rename_i ws hrec
          cases h
          exact List.Forall₂.cons hfx (ih ws hrec)

/-- Claim C3: a batch embed request with an empty sentences list is rejected
with the 400 "Empty sentence list" HTTPException — raised before the try
block, so it keeps its 400 status — for any prefix and model field values,
and no model lookup, encode call or background task occurs. -/
theorem embed_batch_empty_rejected
    (mc : ModelContainer) (req : BatchEmbedRequest) (memPercent : ℚ)
    (h : req.sentences = []) :
    (embed_batch mc req memPercent).result
        = Except.error (Exn.httpExc 400 "Empty sentence list") ∧
    (embed_batch mc req memPercent).calls = [] ∧
    (embed_batch mc req memPercent).background = [] := by
  simp [embed_batch, h]

/-- Witness for C3 at a concrete empty-batch request. -/
theorem embed_batch_empty_rejected_witness :
    (embed_batch sampleContainer { sentences := [], pfx := "query: ", model := "nope" } 90).result
        = Except.error (Exn.httpExc 400 "Empty sentence list") ∧
    (embed_batch sampleContainer { sentences := [], pfx := "query: ", model := "nope" } 90).calls = [] ∧
    (embed_batch sampleContainer { sentences := [], pfx := "query: ", model := "nope" } 90).background = [] :=
  embed_batch_empty_rejected sampleContainer
    { sentences := [], pfx := "query: ", model := "nope" } 90 rfl

/-- Claim C1 (code bug, evaluated at the failing input): an embed request
naming a model absent from the registry is answered with status 500, not the
400-class status the claim (and the explicit
`HTTPException(status_code=400, ...)` in the handler) intends: the blanket
`except Exception` clause catches the HTTPException — it derives from
`Exception` — and re-raises it as `HTTPException(500, str(e))`. The encode
step is indeed never invoked. -/
theorem embed_text_unknown_model_gives_500 :
    (embed_text sampleContainer { text := "aloha", pfx := "passage: ", model := "unknown" }).result
        = Except.error (Exn.httpExc 500 "400: Model unknown not loaded") ∧
    (embed_text sampleContainer { text := "aloha", pfx := "passage: ", model := "unknown" }).calls = [] :=
  ⟨rfl, rfl⟩

/-- Claim C9: the embed handler is a deterministic function of the request
fields (text, prefix, model) and the registry: with the model encode step
embedded as a function, two embed requests agreeing on all three fields
produce identical outcomes (same embedding vector, same dimensions). -/
theorem embed_text_deterministic
    (mc : ModelContainer) (r1 r2 : EmbedRequest)
    (ht : r1.text = r2.text) (hp : r1.pfx = r2.pfx) (hm : r1.model = r2.model) :
    embed_text mc r1 = embed_text mc r2 := by
  cases r1
  cases r2
  cases ht
  cases hp
  cases hm
  rfl

/-- Witness for C9 at a concrete pair of identical requests. -/
theorem embed_text_deterministic_witness :
    embed_text sampleContainer { text := "aloha", pfx := "passage: ", model := e5small }
      = embed_text sampleContainer { text := "aloha", pfx := "passage: ", model := e5small } :=
  embed_text_deterministic sampleContainer
    { text := "aloha", pfx := "passage: ", model := e5small }
    { text := "aloha", pfx := "passage: ", model := e5small } rfl rfl rfl

/-- Claim C5: when the model is found, the single-embed handler passes encode
exactly the concatenation prefix ++ text, with no separator inserted, and the
batch handler prepends the one request prefix to every sentence
independently, the same prefix for the whole batch. -/
theorem encode_inputs_are_prefix_concat :
    (∀ (mc : ModelContainer) (req : EmbedRequest) (m : EmbModel),
        mc.models.lookup req.model = some m →
        (embed_text mc req).calls
          = [{ modelName := req.model, inputs := [req.pfx ++ req.text], batchSize := none }]) ∧
    (∀ (mc : ModelContainer) (req : BatchEmbedRequest) (memPercent : ℚ) (m : EmbModel),
        req.sentences.isEmpty = false →
        mc.models.lookup req.model = some m →
        (embed_batch mc req memPercent).calls
          = [{ modelName := req.model,
               inputs := req.sentences.map (fun s => req.pfx ++ s),
               batchSize := some 32 }]) := by
  constructor
  · intro mc req m hm
    cases henc : m.encode (req.pfx ++ req.text) <;>
      simp [embed_text, embed_text_body, hm, henc]
  · intro mc req memPercent m hne hm
    cases henc : encodeMany m.encode (req.sentences.map (fun s => req.pfx ++ s)) <;>
      simp [embed_batch, embed_batch_body, hne, hm, henc]

/-- Witness for C5 at concrete embed and batch requests. -/
theorem encode_inputs_are_prefix_concat_witness :
    (embed_text sampleContainer { text := "aloha", pfx := "query: ", model := e5small }).calls
        = [{ modelName := e5small, inputs := ["query: aloha"], batchSize := none }] ∧
    (embed_batch sampleContainer { sentences := ["a", "b"], pfx := "query: ", model := e5small } 50).calls
        = [{ modelName := e5small, inputs := ["query: a", "query: b"], batchSize := some 32 }] :=
  ⟨encode_inputs_are_prefix_concat.1 sampleContainer
      { text := "aloha", pfx := "query: ", model := e5small } constModel rfl,
   encode_inputs_are_prefix_concat.2 sampleContainer
      { sentences := ["a", "b"], pfx := "query: ", model := e5small } 50 constModel rfl rfl⟩

/-- Claim C8: for a non-empty batch request with a known model, the handler
makes exactly one encode call, carrying all prefixed sentences at once, with
the batch_size keyword fixed at 32. -/
theorem batch_single_encode_call_size_32
    (mc : ModelContainer) (req : BatchEmbedRequest) (memPercent : ℚ) (m : EmbModel)
    (hne : req.sentences.isEmpty = false)
    (hm : mc.models.lookup req.model = some m) :
    (embed_batch mc req memPercent).calls
      = [{ modelName := req.model,
           inputs := req.sentences.map (fun s => req.pfx ++ s),
           batchSize := some 32 }] := by
  cases henc : encodeMany m.encode (req.sentences.map (fun s => req.pfx ++ s)) <;>
    simp [embed_batch, embed_batch_body, hne, hm, henc]

/-- Witness for C8 at a concrete three-sentence batch. -/
theorem batch_single_encode_call_size_32_witness :
    (embed_batch sampleContainer
        { sentences := ["a", "b", "c"], pfx := "passage: ", model := e5small } 85).calls
      = [{ modelName := e5small,
           inputs := ["passage: a", "passage: b", "passage: c"],
           batchSize := some 32 }] :=
  batch_single_encode_call_size_32 sampleContainer
    { sentences := ["a", "b", "c"], pfx := "passage: ", model := e5small } 85 constModel rfl rfl

/-- Counterexample to claim C2 at a concrete input: the analyze handler has
no try/except, so a pipeline exception with message "boom" escapes the
handler as the raw exception; it is not reported as a 5xx-class
HTTPException whose detail is "boom". -/
theorem analyze_exception_not_reported_with_detail :
    ¬ reportedAs5xxWithDetail
        (analyze_text failingContainer { sentence := "x" }).result "boom" := by
  rintro ⟨status, -, -, h⟩
  have hres : (analyze_text failingContainer { sentence := "x" }).result
      = Except.error (Exn.rawExc "boom") := rfl
  rw [hres] at h
  simp at h

/-- Claim C2 (amended): for embed and batch embed, whose bodies sit inside a
try/except, an exception raised by the encode step is reported as
HTTPException(500) whose detail is the raw error message; the analyze
handler has no try/except, so a pipeline exception escapes unconverted and
no detail-bearing 5xx response is produced by the code of the service itself. -/
theorem inference_errors_reporting :
    (∀ (mc : ModelContainer) (req : EmbedRequest) (m : EmbModel) (msg : String),
        mc.models.lookup req.model = some m →
        m.encode (req.pfx ++ req.text) = Except.error msg →
        (embed_text mc req).result = Except.error (Exn.httpExc 500 msg)) ∧
    (∀ (mc : ModelContainer) (req : BatchEmbedRequest) (memPercent : ℚ)
        (m : EmbModel) (msg : String),
        req.sentences.isEmpty = false →
        mc.models.lookup req.model = some m →
        encodeMany m.encode (req.sentences.map (fun s => req.pfx ++ s)) = Except.error msg →
        (embed_batch mc req memPercent).result = Except.error (Exn.httpExc 500 msg)) ∧
    (∀ (mc : ModelContainer) (req : AnalyzeRequest) (nlpP : NlpPipe) (msg : String),
        mc.nlp = some nlpP →
        nlpP req.sentence = Except.error msg →
        (analyze_text mc req).result = Except.error (Exn.rawExc msg)) := by
  refine ⟨?_, ?_, ?_⟩
  · intro mc req m msg hm henc
    simp [embed_text, embed_text_body, hm, henc, strOfExn]
  · intro mc req memPercent m msg hne hm henc
    simp [embed_batch, embed_batch_body, hne, hm, henc, strOfExn]
  · intro mc req nlpP msg hn henc
    simp [analyze_text, hn, henc]

/-- Witness for the amended C2 at concrete failing model and pipeline. -/
theorem inference_errors_reporting_witness :
    (embed_text failingContainer { text := "x", pfx := "p", model := e5small }).result
        = Except.error (Exn.httpExc 500 "boom") ∧
    (embed_batch failingContainer { sentences := ["a"], pfx := "p", model := e5small } 50).result
        = Except.error (Exn.httpExc 500 "boom") ∧
    (analyze_text failingContainer { sentence := "x" }).result
        = Except.error (Exn.rawExc "boom") :=
  ⟨inference_errors_reporting.1 failingContainer
      { text := "x", pfx := "p", model := e5small } failingModel "boom" rfl rfl,
   inference_errors_reporting.2.1 failingContainer
      { sentences := ["a"], pfx := "p", model := e5small } 50 failingModel "boom" rfl rfl rfl,
   inference_errors_reporting.2.2 failingContainer
      { sentence := "x" } failingNlp "boom" rfl rfl⟩

/-- Claim C4: a successful batch embed response contains exactly one vector
per input sentence — the k-th vector being the encoding of the k-th prefixed
sentence, hence in input order — and its count field equals the number of
input sentences. -/
theorem batch_response_one_vector_per_sentence
    (mc : ModelContainer) (req : BatchEmbedRequest) (memPercent : ℚ)
    (m : EmbModel) (r : BatchResponse)
    (hm : mc.models.lookup req.model = some m)
    (hr : (embed_batch mc req memPercent).result = Except.ok r) :
    r.embeddings.length = req.sentences.length ∧
    r.count = req.sentences.length ∧
    batchMatches m req.pfx req.sentences r.embeddings := by
  by_cases hne : req.sentences.isEmpty
  · simp [embed_batch, hne] at hr
  · rw [Bool.not_eq_true] at hne
    cases henc : encodeMany m.encode (req.sentences.map (fun s => req.pfx ++ s)) with
    | error msg => simp [embed_batch, embed_batch_body, hne, hm, henc] at hr
    | ok vs =>
        simp [embed_batch, embed_batch_body, hne, hm, henc] at hr
        have hf2 := encodeMany_ok_forall2 m.encode _ vs henc
        have hlen := hf2.length_eq
        rw [List.length_map] at hlen
        have hmatch : batchMatches m req.pfx req.sentences vs :=
          List.forall₂_map_left_iff.mp hf2
        cases hr
        exact ⟨hlen.symm, hlen.symm, hmatch⟩

/-- Witness for C4 at a concrete three-sentence batch. -/
theorem batch_response_one_vector_per_sentence_witness :
    ([[(1 : ℚ), 2], [1, 2], [1, 2]].length = (["a", "b", "c"] : List String).length) ∧
    (3 = (["a", "b", "c"] : List String).length) ∧
    batchMatches constModel "passage: " ["a", "b", "c"] [[1, 2], [1, 2], [1, 2]] :=
  batch_response_one_vector_per_sentence sampleContainer
    { sentences := ["a", "b", "c"], pfx := "passage: ", model := e5small } 50 constModel
    { embeddings := [[1, 2], [1, 2], [1, 2]], count := 3 } rfl rfl

/-- Claim C6: on a successful batch embed, the memory_cleanup background task
is scheduled if and only if the host memory percentage exceeds 80; the
handler only schedules the task, never runs it (FastAPI executes background
tasks after the response has been sent), so the response value is the same
whatever the memory reading; and the cleanup, when it runs, empties the CUDA
cache exactly when an accelerator is available and always performs a
garbage-collection pass. -/
theorem cleanup_scheduled_iff_pressure
    (mc : ModelContainer) (req : BatchEmbedRequest) (memPercent memPercent2 : ℚ)
    (m : EmbModel) (vs : List Vec) (cudaAvailable : Bool)
    (hne : req.sentences.isEmpty = false)
    (hm : mc.models.lookup req.model = some m)
    (henc : encodeMany m.encode (req.sentences.map (fun s => req.pfx ++ s)) = Except.ok vs) :
    (BgTask.memoryCleanupTask ∈ (embed_batch mc req memPercent).background
        ↔ 80 < memPercent) ∧
    (embed_batch mc req memPercent).result
        = Except.ok { embeddings := vs, count := vs.length } ∧
    (embed_batch mc req memPercent).result = (embed_batch mc req memPercent2).result ∧
    BgEffect.gcCollect ∈ memory_cleanup cudaAvailable ∧
    (BgEffect.cudaEmptyCache ∈ memory_cleanup cudaAvailable ↔ cudaAvailable = true) := by
  refine ⟨?_, ?_, ?_, ?_, ?_⟩
  · by_cases hp : (80 : ℚ) < memPercent <;>
      simp [embed_batch, embed_batch_body, hne, hm, henc, hp]
  · simp [embed_batch, embed_batch_body, hne, hm, henc]
  · simp [embed_batch, embed_batch_body, hne, hm, henc]
  · cases cudaAvailable <;> simp [memory_cleanup]
  · cases cudaAvailable <;> simp [memory_cleanup]

/-- Witness for C6 at a concrete batch under memory pressure. -/
theorem cleanup_scheduled_iff_pressure_witness :
    (BgTask.memoryCleanupTask ∈
        (embed_batch sampleContainer
          { sentences := ["a"], pfx := "passage: ", model := e5small } 90).background
      ↔ (80 : ℚ) < 90) ∧
    (embed_batch sampleContainer
        { sentences := ["a"], pfx := "passage: ", model := e5small } 90).result
      = Except.ok { embeddings := [[1, 2]], count := 1 } ∧
    (embed_batch sampleContainer
        { sentences := ["a"], pfx := "passage: ", model := e5small } 90).result
      = (embed_batch sampleContainer
          { sentences := ["a"], pfx := "passage: ", model := e5small } 10).result ∧
    BgEffect.gcCollect ∈ memory_cleanup true ∧
    (BgEffect.cudaEmptyCache ∈ memory_cleanup true ↔ true = true) :=
  cleanup_scheduled_iff_pressure sampleContainer
    { sentences := ["a"], pfx := "passage: ", model := e5small } 90 10 constModel
    [[1, 2]] true rfl rfl rfl

/-- Claim C10: in every successful response the numeric count field equals the
length of the companion list: dimensions is the length of the embedding for
embed, count is the length of the embeddings list for batch embed, and
entity_count is the length of the entities list for analyze. -/
theorem count_fields_equal_lengths :
    (∀ (mc : ModelContainer) (req : EmbedRequest) (r : EmbedResponse),
        (embed_text mc req).result = Except.ok r → r.dimensions = r.embedding.length) ∧
    (∀ (mc : ModelContainer) (req : BatchEmbedRequest) (memPercent : ℚ) (r : BatchResponse),
        (embed_batch mc req memPercent).result = Except.ok r → r.count = r.embeddings.length) ∧
    (∀ (mc : ModelContainer) (req : AnalyzeRequest) (r : AnalyzeResponse),
        (analyze_text mc req).result = Except.ok r → r.entity_count = r.entities.length) := by
  refine ⟨?_, ?_, ?_⟩
  · intro mc req r hr
    cases hml : mc.models.lookup req.model with
    | none => simp [embed_text, embed_text_body, hml] at hr
    | some m =>
        cases henc : m.encode (req.pfx ++ req.text) with
        | error msg => simp [embed_text, embed_text_body, hml, henc] at hr
        | ok v =>
            simp [embed_text, embed_text_body, hml, henc] at hr
            cases hr
            rfl
  · intro mc req memPercent r hr
    by_cases hne : req.sentences.isEmpty
    · simp [embed_batch, hne] at hr
    · rw [Bool.not_eq_true] at hne
      cases hml : mc.models.lookup req.model with
      | none => simp [embed_batch, embed_batch_body, hne, hml] at hr
      | some m =>
          cases henc : encodeMany m.encode (req.sentences.map (fun s => req.pfx ++ s)) with
          | error msg => simp [embed_batch, embed_batch_body, hne, hml, henc] at hr
          | ok vs =>
              simp [embed_batch, embed_batch_body, hne, hml, henc] at hr
              cases hr
              rfl
  · intro mc req r hr
    cases hn : mc.nlp with
    | none => simp [analyze_text, hn] at hr
    | some nlpP =>
        cases hp : nlpP req.sentence with
        | error msg => simp [analyze_text, hn, hp] at hr
        | ok ents =>
            simp [analyze_text, hn, hp] at hr
            cases hr
            simp

/-- Witness for C10 at concrete successful responses of all three handlers. -/
theorem count_fields_equal_lengths_witness :
    ((2 : Nat) = [(1 : ℚ), 2].length) ∧
    ((1 : Nat) = [[(1 : ℚ), 2]].length) ∧
    ((0 : Nat) = ([] : List Ent).length) :=
  ⟨count_fields_equal_lengths.1 sampleContainer
      { text := "x", pfx := "p", model := e5small }
      { embedding := [1, 2], dimensions := 2 } rfl,
   count_fields_equal_lengths.2.1 sampleContainer
      { sentences := ["a"], pfx := "p", model := e5small } 50
      { embeddings := [[1, 2]], count := 1 } rfl,
   count_fields_equal_lengths.2.2 sampleContainer
      { sentence := "x" }
      { entity_count := 0, entities := [] } rfl⟩

/-- Serving any single request leaves the registry untouched: no handler
assigns to the container. -/
theorem handle_preserves_registry (mc : ModelContainer) (r : Request) :
    (handle mc r).1 = mc := by
  cases r <;> rfl

/-- Serving any sequence of requests leaves the registry untouched. -/
theorem runServer_preserves_registry (reqs : List Request) :
    ∀ mc : ModelContainer, runServer mc reqs = mc := by
  induction reqs with
  | nil => intro mc; rfl
  | cons r rs ih =>
      intro mc
      have hstep : runServer mc (r :: rs) = runServer (handle mc r).1 rs := rfl
      rw [hstep, handle_preserves_registry, ih]

/-- Claim C7: the registry is populated exactly once before any request is
served — the ready state is load_models applied once to the freshly
constructed container, and it already holds both e5 models and the pipeline —
and no request handler mutates it: serving any sequence of requests from the
ready state leaves the registry equal to what it was before. -/
theorem registry_loaded_once_then_read_only
    (cudaAvailable : Bool) (loader : String → EmbModel) (nlpP : NlpPipe)
    (reqs : List Request) :
    runServer (readyState cudaAvailable loader nlpP) reqs
        = readyState cudaAvailable loader nlpP ∧
    (readyState cudaAvailable loader nlpP).models.lookup e5small = some (loader e5small) ∧
    (readyState cudaAvailable loader nlpP).models.lookup e5large = some (loader e5large) ∧
    (readyState cudaAvailable loader nlpP).nlp = some nlpP :=
  ⟨runServer_preserves_registry reqs _, rfl, rfl, rfl⟩

end EmbedService
